import Mathlib

/-!
Event registration server: store, sessions and request handlers.

A shallow embedding of `src/server.js` and `src/models/User.js`.

* The document collection is a list of `User` records in insertion order; a
  session is the optional `userId` it carries.
* A request body field is a `JsVal`, the values `express.json()` can put there.
* Every handler is a pure function from the store, the session and the request
  to a response, the next store and the next session.  What the handler reads
  from its surroundings (the clock, the salt drawn by bcrypt) is an argument.
* The library functions that are not defined here (`String.prototype.toLowerCase`
  with its Unicode case tables, bcrypt) are the fields of a parameter,
  `Runtime`; what is assumed of them is `Runtime.LowerCaseLaws` and
  `Runtime.BcryptLaws`.
-/

namespace EventRegistration

/-! ## JavaScript values and string primitives -/

/-- A request body field after `express.json()`: a missing key, `null`, a
boolean, a number, a string, an object with a string `_id` member
(`objWithId`), or any other object or array (`obj`).  A number is an integer of
magnitude below 2^53, the range in which the parsed double is the integer
written and `Number.prototype.toString` is its decimal numeral; fractions and
larger numbers are outside the type. -/
inductive JsVal where
  | undefined
  | null
  | bool (b : Bool)
  | num (n : Int) (safe : n.natAbs < 9007199254740992)
  | str (s : String)
  | objWithId (_id : String)
  | obj
  deriving DecidableEq, Repr

/-- JavaScript truthiness: `!v` is `false` exactly when `truthy v`. -/
def JsVal.truthy : JsVal → Bool
  | .undefined => false
  | .null => false
  | .bool b => b
  | .num n _ => decide (n ≠ 0)
  | .str s => decide (s ≠ "")
  | .objWithId _ => true
  | .obj => true

/-- The test `s === v` for a string `s`: no conversion, so only a string equals it. -/
def strictEq (s : String) : JsVal → Bool
  | .str t => decide (s = t)
  | _ => false

/-- The code points `String.prototype.trim` removes (WhiteSpace and LineTerminator). -/
def isWhiteSpace (c : Char) : Bool :=
  let n := c.toNat
  (9 ≤ n && n ≤ 13) || n == 32 || n == 160 || n == 5760 || (8192 ≤ n && n ≤ 8202) ||
    n == 8232 || n == 8233 || n == 8239 || n == 8287 || n == 12288 || n == 65279

/-- The function `String.prototype.trim`. -/
def trim (s : String) : String :=
  ⟨((s.data.dropWhile isWhiteSpace).reverse.dropWhile isWhiteSpace).reverse⟩

/-- Mongoose's cast of a value to a `String` path (`castString`): a string is
kept, a boolean or number is rendered by its `toString()`, an object with a
non-empty string `_id` is replaced by that `_id`, any other object or array is
a `CastError` (`none`); `null`/`undefined` stay empty (`none`: the path is
required). -/
def castString : JsVal → Option String
  | .str s => some s
  | .bool true => some "true"
  | .bool false => some "false"
  | .num n _ => some (toString n)
  | .objWithId id => if id = "" then none else some id
  | .undefined => none
  | .null => none
  | .obj => none

/-- The library functions the handlers call: `toLowerCase` is
`String.prototype.toLowerCase`, the case mapping of the JavaScript engine over
all of Unicode (Mongoose's `lowercase` setter calls the same function); `hash`
is `bcrypt.hash data rounds`, with the salt the library draws made explicit;
`compare` is `bcrypt.compare data encrypted`.  The handlers and the theorems
take a `Runtime` as an argument, so they hold for the engine's functions as
for any others that meet the laws assumed. -/
structure Runtime where
  toLowerCase : String → String
  hash : String → Nat → Nat → String
  compare : String → String → Bool

/-- What is assumed of `toLowerCase`: lowercasing a lowercased string changes
nothing, and the empty string stays empty. -/
def Runtime.LowerCaseLaws (R : Runtime) : Prop :=
  (∀ s, R.toLowerCase (R.toLowerCase s) = R.toLowerCase s) ∧ R.toLowerCase "" = ""

/-- What is assumed of bcrypt: a password matches its own hash, and a hash is
never the empty string. -/
def Runtime.BcryptLaws (R : Runtime) : Prop :=
  (∀ data rounds salt, R.compare data (R.hash data rounds salt) = true) ∧
  (∀ data rounds salt, R.hash data rounds salt ≠ "")

/-! ## Data model (`models/User.js`) -/

/-- The schema `RegistrationSchema`. -/
structure Registration where
  eventName : String
  registeredAt : Nat
  deriving DecidableEq, Repr

/-- The schema `UserSchema`, with the `_id` and the two timestamps of
`{ timestamps: true }`. -/
structure User where
  _id : Nat
  name : String
  email : String
  password : String
  registrations : List Registration
  createdAt : Nat
  updatedAt : Nat
  deriving DecidableEq, Repr

/-- The `users` collection, in insertion order. -/
abbrev Store := List User

/-- The field `req.session.userId`, when set. -/
abbrev Session := Option Nat

/-- The setters of the `name` path: `trim: true`. -/
def nameSetters (s : String) : String := trim s

/-- The setters of the `email` path: `lowercase: true, trim: true`. -/
def emailSetters (R : Runtime) (s : String) : String := trim (R.toLowerCase s)

/-- The query `User.findOne({ email })`.  Mongoose casts a filter value as it
casts a value to store: since version 5 (the connection options
`useNewUrlParser`/`useUnifiedTopology` of `server.js` are of 5.7 and later) the
cast of a query runs the setters of the path, so with `lowercase: true,
trim: true` the filter is lowercased and trimmed before the match, and
`findOne({ email: ' a@x.com ' })` looks for `'a@x.com'`. -/
def User.findOne (R : Runtime) (s : Store) (email : String) : Option User :=
  s.find? (fun u => decide (u.email = emailSetters R email))

/-- The query `User.findById(id)`. -/
def User.findById (s : Store) (id : Nat) : Option User :=
  s.find? (fun u => decide (u._id = id))

/-- A new `_id`: one that no stored document has. -/
def freshId (s : Store) : Nat :=
  (s.map (fun u => u._id)).foldr max 0 + 1

/-- The calls `new User({ name, email, password })` and `user.save()`: cast and
setters, then validation of the required paths, then the insert under the
unique index on `email`.  `none` is a rejected save. -/
def User.create (R : Runtime) (s : Store) (name : JsVal) (email password : String)
    (now : Nat) :
    Option (User × Store) :=
  match castString name with
  | none => none
  | some n =>
    let name1 := nameSetters n
    let email1 := emailSetters R email
    if name1 = "" ∨ email1 = "" ∨ password = "" then none
    else if s.any (fun u => decide (u.email = email1)) then none
    else
      let user : User :=
        { _id := freshId s, name := name1, email := email1, password := password,
          registrations := [], createdAt := now, updatedAt := now }
      some (user, s ++ [user])

/-- The write of `user.save()` for a loaded document: the first stored
document with this `_id` is replaced. -/
def replaceFirst : Store → Nat → User → Store
  | [], _, _ => []
  | u :: rest, id, doc => if u._id = id then doc :: rest else u :: replaceFirst rest id doc

/-- The call `user.registrations.push({ eventName, registeredAt })` on a loaded
document: the subdocument is cast; `none` is a document that fails validation
when saved. -/
def User.pushRegistration (user : User) (eventName : JsVal) (now : Nat) : Option User :=
  match castString eventName with
  | none => none
  | some e =>
    if e = "" then none
    else some { user with registrations := user.registrations ++ [⟨e, now⟩] }

/-! ## Requests and responses -/

/-- The fields of `req.body` the handlers read. -/
structure Body where
  name : JsVal := .undefined
  email : JsVal := .undefined
  password : JsVal := .undefined
  eventName : JsVal := .undefined
  deriving DecidableEq, Repr

/-- A user as the handlers of register and login return it: `{ id, name, email }`. -/
structure UserInfo where
  id : Nat
  name : String
  email : String
  deriving DecidableEq, Repr

/-- A user document without its password: `.select('-password')`. -/
structure UserView where
  _id : Nat
  name : String
  email : String
  registrations : List Registration
  createdAt : Nat
  updatedAt : Nat
  deriving DecidableEq, Repr

/-- A row of the admin listing: `.select('name email registrations')`. -/
structure AdminRow where
  _id : Nat
  name : String
  email : String
  registrations : List Registration
  deriving DecidableEq, Repr

/-- The JSON body of a response. -/
inductive Payload where
  | error (error : String)
  | message (message : String)
  | user (message : String) (user : UserInfo)
  | registrations (message : String) (registrations : List Registration)
  | me (user : Option UserView)
  | users (users : List AdminRow)
  deriving DecidableEq, Repr

/-- A response: HTTP status and JSON body. -/
structure Response where
  status : Nat
  body : Payload
  deriving DecidableEq, Repr

/-- The result of a handler: the response, the store and the session after it. -/
abbrev Outcome := Response × Store × Session

/-! ## Handlers (`server.js`) -/

/-- Handler of `POST /api/register`. -/
def postRegister (R : Runtime) (s : Store) (sess : Session) (body : Body) (salt now : Nat) :
    Outcome :=
  if !body.name.truthy || !body.email.truthy || !body.password.truthy then
    (⟨400, .error "All fields required"⟩, s, sess)
  else
    match body.email with
    | .str email =>
      match User.findOne R s (R.toLowerCase email) with
      | some _ => (⟨409, .error "Email already registered"⟩, s, sess)
      | none =>
        match body.password with
        | .str password =>
          let hash := R.hash password 12 salt
          match User.create R s body.name (R.toLowerCase email) hash now with
          | some (user, s1) =>
            (⟨200, .user "Registered successfully" ⟨user._id, user.name, user.email⟩⟩, s1,
              some user._id)
          | none => (⟨500, .error "Server error"⟩, s, sess)
        | _ => (⟨500, .error "Server error"⟩, s, sess)
    | _ => (⟨500, .error "Server error"⟩, s, sess)

/-- Handler of `POST /api/login`. -/
def postLogin (R : Runtime) (s : Store) (sess : Session) (body : Body) : Outcome :=
  if !body.email.truthy || !body.password.truthy then
    (⟨400, .error "Missing credentials"⟩, s, sess)
  else
    match body.email with
    | .str email =>
      match User.findOne R s (R.toLowerCase email) with
      | none => (⟨401, .error "Invalid email or password"⟩, s, sess)
      | some user =>
        match body.password with
        | .str password =>
          if R.compare password user.password then
            (⟨200, .user "Logged in" ⟨user._id, user.name, user.email⟩⟩, s, some user._id)
          else (⟨401, .error "Invalid email or password"⟩, s, sess)
        | _ => (⟨500, .error "Server error"⟩, s, sess)
    | _ => (⟨500, .error "Server error"⟩, s, sess)

/-- Handler of `POST /api/logout`; `destroyFails` is the session store
reporting an error to the callback of `req.session.destroy`. -/
def postLogout (s : Store) (sess : Session) (destroyFails : Bool) : Outcome :=
  if destroyFails then (⟨500, .error "Could not log out"⟩, s, sess)
  else (⟨200, .message "Logged out"⟩, s, none)

/-- The middleware `requireAuth`: the user id to continue with, or `none` for
the 401 response. -/
def requireAuth (sess : Session) : Option Nat := sess

/-- Handler of `POST /api/event/register`, behind `requireAuth`; `now` is
`new Date()` of the pushed entry and `savedAt` the time of the save. -/
def postEventRegister (s : Store) (sess : Session) (body : Body) (now savedAt : Nat) :
    Outcome :=
  match requireAuth sess with
  | none => (⟨401, .error "Unauthorized"⟩, s, sess)
  | some userId =>
    if !body.eventName.truthy then (⟨400, .error "Event name required"⟩, s, sess)
    else
      match User.findById s userId with
      | none => (⟨404, .error "User not found"⟩, s, sess)
      | some user =>
        match user.registrations.find? (fun r => strictEq r.eventName body.eventName) with
        | some _ => (⟨409, .error "Already registered for this event"⟩, s, sess)
        | none =>
          match user.pushRegistration body.eventName now with
          | some user1 =>
            (⟨200, .registrations "Registered for event" user1.registrations⟩,
              replaceFirst s userId { user1 with updatedAt := savedAt }, sess)
          | none => (⟨500, .error "Server error"⟩, s, sess)

/-- The projection `.select('-password')`. -/
def User.view (u : User) : UserView :=
  ⟨u._id, u.name, u.email, u.registrations, u.createdAt, u.updatedAt⟩

/-- Handler of `GET /api/me`. -/
def getMe (s : Store) (sess : Session) : Outcome :=
  match sess with
  | none => (⟨200, .me none⟩, s, sess)
  | some userId => (⟨200, .me ((User.findById s userId).map User.view)⟩, s, sess)

/-- Handler of `GET /api/admin/registrations`. -/
def getAdminRegistrations (s : Store) (sess : Session) : Outcome :=
  (⟨200, .users (s.map (fun u => ⟨u._id, u.name, u.email, u.registrations⟩))⟩, s, sess)

/-- A request to one of the JSON routes, with what its handler reads from the
surroundings. -/
inductive Request where
  | register (body : Body) (salt now : Nat)
  | login (body : Body)
  | logout (destroyFails : Bool)
  | eventRegister (body : Body) (now savedAt : Nat)
  | me
  | adminRegistrations
  deriving DecidableEq, Repr

/-- One request served. -/
def handle (R : Runtime) (s : Store) (sess : Session) : Request → Outcome
  | .register body salt now => postRegister R s sess body salt now
  | .login body => postLogin R s sess body
  | .logout destroyFails => postLogout s sess destroyFails
  | .eventRegister body now savedAt => postEventRegister s sess body now savedAt
  | .me => getMe s sess
  | .adminRegistrations => getAdminRegistrations s sess

/-- A sequence of requests served one after the other by one client, whose
session is carried from each request to the next. -/
def serve (R : Runtime) : Store → Session → List Request → Store × Session
  | s, sess, [] => (s, sess)
  | s, sess, r :: rest =>
    let out := handle R s sess r
    serve R out.2.1 out.2.2 rest

/-- A sequence of requests served one after the other, each arriving with a
session of its own (any client, any session state). -/
def serveAll (R : Runtime) : Store → List (Session × Request) → Store
  | s, [] => s
  | s, (sess, r) :: rest => serveAll R (handle R s sess r).2.1 rest

/-- A stand-in for `String.prototype.toLowerCase` that maps the letters A-Z
only: it agrees with the engine on strings of ASCII characters, the only ones
it is applied to below. -/
def asciiToLowerCase (s : String) : String :=
  ⟨s.data.map Char.toLower⟩

/-- A stand-in for the library functions, used to evaluate the handlers on
concrete ASCII inputs. -/
def demoRuntime : Runtime where
  toLowerCase := asciiToLowerCase
  hash := fun data _ _ => "$2b$" ++ data
  compare := fun data encrypted => decide (encrypted = "$2b$" ++ data)

/-- The invariant of the claims: within one user's registrations no two
entries share an `eventName`. -/
def NoDuplicateEvents (s : Store) : Prop :=
  ∀ u ∈ s, (u.registrations.map (fun r => r.eventName)).Nodup

/-! ## Relations between stores -/

/-- What every write keeps of a stored user `u` in its later version `v`: the
`_id`, the name, the email, the password hash and `createdAt` are the same and
the registrations of `u` are the first entries of those of `v`. -/
def User.Continues (u v : User) : Prop :=
  v._id = u._id ∧ v.name = u.name ∧ v.email = u.email ∧ v.password = u.password ∧
    v.createdAt = u.createdAt ∧ u.registrations <+: v.registrations

/-- A later store `t` of `s`: position by position a later version of each
user of `s`, followed by the users added since. -/
inductive Extends : Store → Store → Prop where
  | nil (added : Store) : Extends [] added
  | cons {u v : User} {s t : Store} : User.Continues u v → Extends s t →
      Extends (u :: s) (v :: t)

/-- The invariant kept by the unique index: no two stored users share an email. -/
def UniqueEmails (s : Store) : Prop :=
  (s.map (fun u => u.email)).Nodup

/-! ## Lookups and writes on the collection -/

theorem findById_split {s : Store} {id : Nat} {u : User} (h : User.findById s id = some u) :
    u._id = id ∧ ∃ pre post, s = pre ++ u :: post ∧ (∀ x ∈ pre, x._id ≠ id) ∧
      ∀ d, replaceFirst s id d = pre ++ d :: post := by
  induction s with
  | nil => simp [User.findById] at h
  | cons a rest ih =>
    by_cases ha : a._id = id
    · have hau : a = u := by simpa [User.findById, ha] using h
      subst hau
      exact ⟨ha, [], rest, rfl, by simp, fun d => by simp [replaceFirst, ha]⟩
    · have h1 : User.findById rest id = some u := by simpa [User.findById, ha] using h
      obtain ⟨hid, pre, post, hs, hpre, hrep⟩ := ih h1
      refine ⟨hid, a :: pre, post, by simp [hs], ?_, fun d => by simp [replaceFirst, ha, hrep]⟩
      intro x hx
      rcases List.mem_cons.mp hx with rfl | hx1
      · exact ha
      · exact hpre x hx1

theorem findById_append_cons {pre post : List User} {d : User} {id : Nat}
    (hpre : ∀ x ∈ pre, x._id ≠ id) (hd : d._id = id) :
    User.findById (pre ++ d :: post) id = some d := by
  induction pre with
  | nil => simp [User.findById, hd]
  | cons a rest ih =>
    have ha : a._id ≠ id := hpre a (List.mem_cons_self _ _)
    have hrest : ∀ x ∈ rest, x._id ≠ id := fun x hx => hpre x (List.mem_cons_of_mem _ hx)
    have := ih hrest
    simpa [User.findById, ha] using this

theorem find_strictEq_none {regs : List Registration} {e : String}
    (h : ∀ r ∈ regs, r.eventName ≠ e) :
    regs.find? (fun r => strictEq r.eventName (.str e)) = none := by
  rw [List.find?_eq_none]
  intro r hr
  simpa [strictEq] using h r hr

theorem find_strictEq_some {regs : List Registration} {e : String}
    (h : ∃ r ∈ regs, r.eventName = e) :
    ∃ r, regs.find? (fun r => strictEq r.eventName (.str e)) = some r := by
  cases hf : regs.find? (fun r => strictEq r.eventName (.str e)) with
  | some r => exact ⟨r, rfl⟩
  | none =>
    rw [List.find?_eq_none] at hf
    obtain ⟨r, hr, hre⟩ := h
    exact absurd (by simpa [strictEq] using hre) (hf r hr)

/-- The handler of `POST /api/event/register` on a string event name the user
does not have yet: the 200 response and the write. -/
theorem postEventRegister_fresh {s : Store} {userId : Nat} {u : User} {body : Body}
    {e : String} (now savedAt : Nat) (hu : User.findById s userId = some u)
    (hb : body.eventName = .str e) (he : e ≠ "")
    (hno : ∀ r ∈ u.registrations, r.eventName ≠ e) :
    postEventRegister s (some userId) body now savedAt =
      (⟨200, .registrations "Registered for event" (u.registrations ++ [⟨e, now⟩])⟩,
        replaceFirst s userId
          { u with registrations := u.registrations ++ [⟨e, now⟩], updatedAt := savedAt },
        some userId) := by
  simp [postEventRegister, requireAuth, hu, hb, JsVal.truthy, he, find_strictEq_none hno,
    User.pushRegistration, castString]

/-- The handler of `POST /api/event/register` on a string event name the user
already has: the 409 response, nothing written. -/
theorem postEventRegister_duplicate {s : Store} {userId : Nat} {u : User} {body : Body}
    {e : String} (now savedAt : Nat) (hu : User.findById s userId = some u)
    (hb : body.eventName = .str e) (he : e ≠ "")
    (hyes : ∃ r ∈ u.registrations, r.eventName = e) :
    postEventRegister s (some userId) body now savedAt =
      (⟨409, .error "Already registered for this event"⟩, s, some userId) := by
  obtain ⟨r, hr⟩ := find_strictEq_some hyes
  simp [postEventRegister, requireAuth, hu, hb, JsVal.truthy, he, hr]

/-! ## Claims on `POST /api/event/register` -/

/-- C1: for a session bound to an existing user `u` with no registration named
`e` (`e` non-empty), the handler answers 200 and `u`'s stored registrations are
one entry longer; the same request again answers 409 'Already registered for
this event' and leaves the store, and so that length, as it is. -/
theorem registerForEvent_once_then_conflict (s : Store) (userId : Nat) (u : User)
    (body : Body) (e : String) (now savedAt now2 savedAt2 : Nat)
    (hu : User.findById s userId = some u) (hb : body.eventName = .str e) (he : e ≠ "")
    (hno : ∀ r ∈ u.registrations, r.eventName ≠ e) :
    ∃ (regs : List Registration) (s1 : Store) (u1 : User),
      postEventRegister s (some userId) body now savedAt =
        (⟨200, .registrations "Registered for event" regs⟩, s1, some userId) ∧
      User.findById s1 userId = some u1 ∧
      u1.registrations.length = u.registrations.length + 1 ∧
      regs.length = u.registrations.length + 1 ∧
      postEventRegister s1 (some userId) body now2 savedAt2 =
        (⟨409, .error "Already registered for this event"⟩, s1, some userId) := by
  obtain ⟨hid, pre, post, hs, hpre, hrep⟩ := findById_split hu
  have hfind : User.findById
      (replaceFirst s userId
        { u with registrations := u.registrations ++ [⟨e, now⟩], updatedAt := savedAt })
      userId = some
        { u with registrations := u.registrations ++ [⟨e, now⟩], updatedAt := savedAt } := by
    rw [hrep]
    exact findById_append_cons hpre hid
  refine ⟨u.registrations ++ [⟨e, now⟩], _, _, postEventRegister_fresh now savedAt hu hb he hno,
    hfind, by simp, by simp, ?_⟩
  exact postEventRegister_duplicate now2 savedAt2 hfind hb he ⟨⟨e, now⟩, by simp, rfl⟩

theorem registerForEvent_once_then_conflict_witness :
    ∃ (regs : List Registration) (s1 : Store) (u1 : User),
      postEventRegister [⟨1, "Alice", "alice@x.com", "$2b$pw123", [], 0, 0⟩] (some 1)
          { eventName := .str "conf2024" } 7 8 =
        (⟨200, .registrations "Registered for event" regs⟩, s1, some 1) ∧
      User.findById s1 1 = some u1 ∧
      u1.registrations.length = 0 + 1 ∧
      regs.length = 0 + 1 ∧
      postEventRegister s1 (some 1) { eventName := .str "conf2024" } 9 10 =
        (⟨409, .error "Already registered for this event"⟩, s1, some 1) :=
  registerForEvent_once_then_conflict [⟨1, "Alice", "alice@x.com", "$2b$pw123", [], 0, 0⟩] 1
    ⟨1, "Alice", "alice@x.com", "$2b$pw123", [], 0, 0⟩ { eventName := .str "conf2024" }
    "conf2024" 7 8 9 10 (by decide) rfl (by decide) (by decide)

/-- C7: without a `userId` in the session the handler of
`POST /api/event/register` answers 401 'Unauthorized' for every body and
leaves the store and the session as they are. -/
theorem eventRegister_requires_session (s : Store) (body : Body) (now savedAt : Nat) :
    postEventRegister s none body now savedAt = (⟨401, .error "Unauthorized"⟩, s, none) := by
  simp [postEventRegister, requireAuth]

/-- C8: a 200 answer of `POST /api/event/register` for the string event name `e`
at time `now`: the session names a stored user `u`, the returned sequence and
the stored one are `u`'s previous registrations followed by the one entry
`(e, now)`, the other fields of `u` except `updatedAt` are kept, and every
other document of the collection is untouched. -/
theorem eventRegister_appends_and_frames (s : Store) (sess : Session) (body : Body)
    (e : String) (now savedAt : Nat) (hb : body.eventName = .str e)
    (hok : (postEventRegister s sess body now savedAt).1.status = 200) :
    ∃ (userId : Nat) (u : User) (pre post : List User),
      sess = some userId ∧ User.findById s userId = some u ∧
      s = pre ++ u :: post ∧ (∀ x ∈ pre, x._id ≠ userId) ∧
      postEventRegister s sess body now savedAt =
        (⟨200, .registrations "Registered for event" (u.registrations ++ [⟨e, now⟩])⟩,
          pre ++ { _id := u._id, name := u.name, email := u.email, password := u.password,
                   registrations := u.registrations ++ [⟨e, now⟩],
                   createdAt := u.createdAt, updatedAt := savedAt } :: post,
          sess) := by
  cases sess with
  | none => simp [postEventRegister, requireAuth] at hok
  | some userId =>
    by_cases he : e = ""
    · simp [postEventRegister, requireAuth, hb, he, JsVal.truthy] at hok
    · cases hu : User.findById s userId with
      | none => simp [postEventRegister, requireAuth, hb, he, JsVal.truthy, hu] at hok
      | some u =>
        by_cases hyes : ∃ r ∈ u.registrations, r.eventName = e
        · rw [postEventRegister_duplicate now savedAt hu hb he hyes] at hok
          simp at hok
        · have hno : ∀ r ∈ u.registrations, r.eventName ≠ e :=
            fun r hr hre => hyes ⟨r, hr, hre⟩
          obtain ⟨_, pre, post, hs, hpre, hrep⟩ := findById_split hu
          refine ⟨userId, u, pre, post, rfl, hu, hs, hpre, ?_⟩
          rw [postEventRegister_fresh now savedAt hu hb he hno, hrep]

theorem eventRegister_appends_and_frames_witness :
    ∃ (userId : Nat) (u : User) (pre post : List User),
      some 2 = some userId ∧
      User.findById [⟨1, "Alice", "alice@x.com", "h1", [], 0, 0⟩,
        ⟨2, "Bob", "bob@x.com", "h2", [⟨"conf2024", 3⟩], 1, 3⟩] userId = some u ∧
      [⟨1, "Alice", "alice@x.com", "h1", [], 0, 0⟩,
        ⟨2, "Bob", "bob@x.com", "h2", [⟨"conf2024", 3⟩], 1, 3⟩] = pre ++ u :: post ∧
      (∀ x ∈ pre, x._id ≠ userId) ∧
      postEventRegister [⟨1, "Alice", "alice@x.com", "h1", [], 0, 0⟩,
          ⟨2, "Bob", "bob@x.com", "h2", [⟨"conf2024", 3⟩], 1, 3⟩] (some 2)
          { eventName := .str "meetup" } 7 8 =
        (⟨200, .registrations "Registered for event" (u.registrations ++ [⟨"meetup", 7⟩])⟩,
          pre ++ { _id := u._id, name := u.name, email := u.email, password := u.password,
                   registrations := u.registrations ++ [⟨"meetup", 7⟩],
                   createdAt := u.createdAt, updatedAt := 8 } :: post,
          some 2) :=
  eventRegister_appends_and_frames _ (some 2) { eventName := .str "meetup" } "meetup" 7 8 rfl
    (by decide)

/-- C9: for a session bound to an existing user `u` and a non-empty string `e`,
the answer is 409 exactly when some entry of `u` has `eventName` equal to `e`
as a string, letter case included; when no entry equals `e` (entries
differing from `e` only in case may be there) the answer is 200 and the entry
is appended. -/
theorem eventRegister_conflict_iff_exact_name (s : Store) (userId : Nat) (u : User)
    (body : Body) (e : String) (now savedAt : Nat)
    (hu : User.findById s userId = some u) (hb : body.eventName = .str e) (he : e ≠ "") :
    ((postEventRegister s (some userId) body now savedAt).1 =
        ⟨409, .error "Already registered for this event"⟩ ↔
      ∃ r ∈ u.registrations, r.eventName = e) ∧
    ((∀ r ∈ u.registrations, r.eventName ≠ e) →
      (postEventRegister s (some userId) body now savedAt).1 =
        ⟨200, .registrations "Registered for event" (u.registrations ++ [⟨e, now⟩])⟩) := by
  constructor
  · constructor
    · intro h409
      by_contra hyes
      have hno : ∀ r ∈ u.registrations, r.eventName ≠ e := fun r hr hre => hyes ⟨r, hr, hre⟩
      rw [postEventRegister_fresh now savedAt hu hb he hno] at h409
      simp at h409
    · intro hyes
      rw [postEventRegister_duplicate now savedAt hu hb he hyes]
  · intro hno
    rw [postEventRegister_fresh now savedAt hu hb he hno]

theorem eventRegister_conflict_iff_exact_name_witness :
    (postEventRegister [⟨1, "Alice", "alice@x.com", "h1", [⟨"conf2024", 3⟩], 0, 3⟩] (some 1)
        { eventName := .str "Conf2024" } 7 8).1 =
      ⟨200, .registrations "Registered for event" [⟨"conf2024", 3⟩, ⟨"Conf2024", 7⟩]⟩ :=
  (eventRegister_conflict_iff_exact_name
    [⟨1, "Alice", "alice@x.com", "h1", [⟨"conf2024", 3⟩], 0, 3⟩] 1
    ⟨1, "Alice", "alice@x.com", "h1", [⟨"conf2024", 3⟩], 0, 3⟩ { eventName := .str "Conf2024" }
    "Conf2024" 7 8 (by decide) rfl (by decide)).2 (by decide)


/-! ## Normalised emails and lookups by email -/

theorem emailSetters_toLowerCase {R : Runtime} (hL : R.LowerCaseLaws) (e : String) :
    emailSetters R (R.toLowerCase e) = trim (R.toLowerCase e) := by
  simp [emailSetters, hL.1]

theorem findOne_eq_none {R : Runtime} {s : Store} {e : String}
    (h : ∀ u ∈ s, u.email ≠ emailSetters R e) : User.findOne R s e = none := by
  rw [User.findOne, List.find?_eq_none]
  intro u hu
  simpa using h u hu

theorem findOne_isSome {R : Runtime} {s : Store} {e : String}
    (h : ∃ u ∈ s, u.email = emailSetters R e) :
    ∃ v, User.findOne R s e = some v ∧ v ∈ s ∧ v.email = emailSetters R e := by
  cases hf : User.findOne R s e with
  | some v =>
    refine ⟨v, rfl, List.mem_of_find?_eq_some hf, ?_⟩
    have := List.find?_some hf
    simpa using this
  | none =>
    rw [User.findOne, List.find?_eq_none] at hf
    obtain ⟨u, hu, hue⟩ := h
    exact absurd (by simpa using hue) (hf u hu)

/-! ## The life of a stored user -/

theorem continues_refl (u : User) : User.Continues u u :=
  ⟨rfl, rfl, rfl, rfl, rfl, List.prefix_refl _⟩

theorem continues_trans {u v w : User} (h1 : User.Continues u v)
    (h2 : User.Continues v w) : User.Continues u w := by
  obtain ⟨a1, a2, a3, a4, a5, a6⟩ := h1
  obtain ⟨b1, b2, b3, b4, b5, b6⟩ := h2
  exact ⟨b1.trans a1, b2.trans a2, b3.trans a3, b4.trans a4, b5.trans a5, a6.trans b6⟩

theorem extends_append (s added : Store) : Extends s (s ++ added) := by
  induction s with
  | nil => exact Extends.nil _
  | cons u rest ih => exact Extends.cons (continues_refl u) ih

theorem extends_refl (s : Store) : Extends s s := by
  simpa using extends_append s []

theorem extends_trans {s t r : Store} (h1 : Extends s t) (h2 : Extends t r) : Extends s r := by
  induction h1 generalizing r with
  | nil added => exact Extends.nil _
  | cons huv _ ih =>
    cases h2 with
    | cons hvw hrest => exact Extends.cons (continues_trans huv hvw) (ih hrest)

theorem extends_middle (pre post : List User) {u d : User} (hd : User.Continues u d) :
    Extends (pre ++ u :: post) (pre ++ d :: post) := by
  induction pre with
  | nil => exact Extends.cons hd (extends_refl _)
  | cons a rest ih => exact Extends.cons (continues_refl a) ih

theorem extends_replaceFirst {s : Store} {id : Nat} {u d : User}
    (hu : User.findById s id = some u) (hd : User.Continues u d) :
    Extends s (replaceFirst s id d) := by
  obtain ⟨_, pre, post, hs, _, hrep⟩ := findById_split hu
  rw [hrep d, hs]
  exact extends_middle pre post hd


theorem extends_findOne {R : Runtime} {s t : Store} (h : Extends s t) {e : String} {u : User}
    (hf : User.findOne R s e = some u) :
    ∃ v, User.findOne R t e = some v ∧ User.Continues u v := by
  induction h with
  | nil added => simp [User.findOne] at hf
  | @cons u0 v0 s0 t0 huv _ ih =>
    have hemail : v0.email = u0.email := huv.2.2.1
    by_cases hk : u0.email = emailSetters R e
    · have hu : u0 = u := by simpa [User.findOne, hk] using hf
      subst hu
      exact ⟨v0, by simp [User.findOne, hemail, hk], huv⟩
    · have hrest : User.findOne R s0 e = some u := by simpa [User.findOne, hk] using hf
      obtain ⟨v, hv, hc⟩ := ih hrest
      refine ⟨v, ?_, hc⟩
      simpa [User.findOne, hemail, hk] using hv

/-! ## What each handler writes -/

theorem create_eq_some {R : Runtime} {s s1 : Store} {name : JsVal} {email password : String}
    {now : Nat} {user : User} (h : User.create R s name email password now = some (user, s1)) :
    s1 = s ++ [user] ∧ user.email = emailSetters R email ∧ user.password = password ∧
      user.registrations = [] ∧ (∀ x ∈ s, x.email ≠ emailSetters R email) ∧
      emailSetters R email ≠ "" := by
  unfold User.create at h
  split at h
  · simp at h
  · dsimp only at h
    split at h
    · simp at h
    · rename_i hreq
      split at h
      · simp at h
      · rename_i hany
        simp only [Option.some.injEq, Prod.mk.injEq] at h
        obtain ⟨hu, hs1⟩ := h
        subst hu
        refine ⟨hs1.symm, rfl, rfl, rfl, ?_, fun h0 => hreq (Or.inr (Or.inl h0))⟩
        intro x hx hxe
        exact hany (List.any_eq_true.mpr ⟨x, hx, by simpa using hxe⟩)

theorem create_ok (R : Runtime) (s : Store) {name : JsVal} {n : String}
    (email password : String) (now : Nat)
    (hname : castString name = some n) (hn : nameSetters n ≠ "")
    (he : emailSetters R email ≠ "") (hp : password ≠ "")
    (hfree : ∀ x ∈ s, x.email ≠ emailSetters R email) :
    User.create R s name email password now =
      some (⟨freshId s, nameSetters n, emailSetters R email, password, [], now, now⟩,
        s ++ [⟨freshId s, nameSetters n, emailSetters R email, password, [], now, now⟩]) := by
  have hany : ¬ (s.any (fun u => decide (u.email = emailSetters R email)) = true) := by
    intro h
    obtain ⟨x, hx, hxe⟩ := List.any_eq_true.mp h
    exact hfree x hx (by simpa using hxe)
  simp [User.create, hname, hn, he, hp, hany]

theorem postRegister_store (R : Runtime) (s : Store) (sess : Session) (body : Body)
    (salt now : Nat) :
    (postRegister R s sess body salt now).2.1 = s ∨
      ∃ user, (postRegister R s sess body salt now).2.1 = s ++ [user] ∧
        user.registrations = [] ∧ ∀ x ∈ s, x.email ≠ user.email := by
  unfold postRegister
  split
  · exact Or.inl rfl
  · split
    · split
      · exact Or.inl rfl
      · split
        · dsimp only
          split
          · rename_i user s1 hc
            obtain ⟨hs1, hemail, _, hregs, hfree, _⟩ := create_eq_some hc
            exact Or.inr ⟨user, hs1, hregs, by rw [hemail]; exact hfree⟩
          · exact Or.inl rfl
        · exact Or.inl rfl
    · exact Or.inl rfl

theorem postLogin_store (R : Runtime) (s : Store) (sess : Session) (body : Body) :
    (postLogin R s sess body).2.1 = s := by
  unfold postLogin
  repeat' split
  all_goals rfl

theorem pushRegistration_eq_some {user user1 : User} {eventName : JsVal} {now : Nat}
    (h : user.pushRegistration eventName now = some user1) :
    ∃ e, castString eventName = some e ∧ e ≠ "" ∧
      user1 = { user with registrations := user.registrations ++ [⟨e, now⟩] } := by
  unfold User.pushRegistration at h
  split at h
  · simp at h
  · rename_i e he
    split at h
    · simp at h
    · rename_i hne
      exact ⟨e, he, hne, by simpa using h.symm⟩

theorem postEventRegister_store (s : Store) (sess : Session) (body : Body) (now savedAt : Nat) :
    (postEventRegister s sess body now savedAt).2.1 = s ∨
      ∃ userId u e, sess = some userId ∧ User.findById s userId = some u ∧
        castString body.eventName = some e ∧
        (∀ r ∈ u.registrations, strictEq r.eventName body.eventName = false) ∧
        (postEventRegister s sess body now savedAt).2.1 =
          replaceFirst s userId
            { u with registrations := u.registrations ++ [⟨e, now⟩], updatedAt := savedAt } := by
  unfold postEventRegister
  split
  · exact Or.inl rfl
  · rename_i userId hs
    split
    · exact Or.inl rfl
    · split
      · exact Or.inl rfl
      · rename_i u hu
        split
        · exact Or.inl rfl
        · rename_i hfind
          split
          · rename_i user1 hpush
            obtain ⟨e, he, _, hu1⟩ := pushRegistration_eq_some hpush
            subst hu1
            refine Or.inr ⟨userId, u, e, hs, hu, he, ?_, rfl⟩
            intro r hr
            have := List.find?_eq_none.mp hfind r hr
            simpa using this
          · exact Or.inl rfl

theorem handle_extends (R : Runtime) (s : Store) (sess : Session) (r : Request) :
    Extends s (handle R s sess r).2.1 := by
  cases r with
  | register body salt now =>
    rcases postRegister_store R s sess body salt now with h | ⟨user, h, _, _⟩
    · simp only [handle, h]; exact extends_refl s
    · simp only [handle, h]; exact extends_append s [user]
  | login body => simp only [handle, postLogin_store]; exact extends_refl s
  | logout destroyFails =>
    cases destroyFails <;> exact extends_refl s
  | eventRegister body now savedAt =>
    rcases postEventRegister_store s sess body now savedAt with h | ⟨userId, u, e, _, hu, _, _, h⟩
    · simp only [handle, h]; exact extends_refl s
    · simp only [handle, h]
      exact extends_replaceFirst hu ⟨rfl, rfl, rfl, rfl, rfl, List.prefix_append _ _⟩
  | me => cases sess <;> exact extends_refl s
  | adminRegistrations => exact extends_refl s

theorem serveAll_extends (R : Runtime) (s : Store) (later : List (Session × Request)) :
    Extends s (serveAll R s later) := by
  induction later generalizing s with
  | nil => exact extends_refl s
  | cons x rest ih =>
    obtain ⟨sess, r⟩ := x
    exact extends_trans (handle_extends R s sess r) (ih _)


/-! ## The handlers of register and login, branch by branch -/

theorem char_toLower_toLower (c : Char) : c.toLower.toLower = c.toLower := by
  unfold Char.toLower
  by_cases h : c.toNat ≥ 65 ∧ c.toNat ≤ 90
  · simp only [h, and_self, if_true]
    obtain ⟨h1, h2⟩ := h
    generalize c.toNat = n at *
    interval_cases n <;> rfl
  · simp only [h, if_false]

theorem demoRuntime_lowerCase : demoRuntime.LowerCaseLaws := by
  refine ⟨fun s => ?_, by decide⟩
  have h : Char.toLower ∘ Char.toLower = Char.toLower := funext char_toLower_toLower
  simp [demoRuntime, asciiToLowerCase, h]

theorem demoRuntime_bcrypt : demoRuntime.BcryptLaws := by
  refine ⟨fun data _ _ => by simp [demoRuntime], fun data _ _ => ?_⟩
  intro h
  have := congrArg String.length h
  simp [demoRuntime] at this
  exact absurd this.1 (by decide)

theorem truthy_str {e : String} (h : e ≠ "") : (JsVal.str e).truthy = true := by
  simp [JsVal.truthy, h]

theorem findOne_congr (R : Runtime) (s : Store) {a b : String}
    (h : emailSetters R a = emailSetters R b) : User.findOne R s a = User.findOne R s b := by
  simp only [User.findOne, h]

theorem postRegister_conflict (R : Runtime) (hL : R.LowerCaseLaws) {s : Store} (sess : Session)
    {body : Body} {e : String} (salt now : Nat) (hname : body.name.truthy = true)
    (hbe : body.email = .str e) (he : e ≠ "") (hpw : body.password.truthy = true)
    (htaken : ∃ u ∈ s, u.email = trim (R.toLowerCase e)) :
    postRegister R s sess body salt now = (⟨409, .error "Email already registered"⟩, s, sess) := by
  rw [← emailSetters_toLowerCase hL] at htaken
  obtain ⟨v, hv, _, _⟩ := findOne_isSome htaken
  have hemail : body.email.truthy = true := by rw [hbe]; exact truthy_str he
  simp only [postRegister, hname, hemail, hpw]
  simp [hbe, hv]

theorem postRegister_ok (R : Runtime) (hL : R.LowerCaseLaws) (s : Store) (sess : Session)
    {body : Body} {name email password : String} (salt now : Nat)
    (hbn : body.name = .str name) (hbe : body.email = .str email)
    (hbp : body.password = .str password)
    (hn : trim name ≠ "") (he : trim (R.toLowerCase email) ≠ "") (hp : password ≠ "")
    (hhash : R.hash password 12 salt ≠ "")
    (hfree : ∀ u ∈ s, u.email ≠ trim (R.toLowerCase email)) :
    postRegister R s sess body salt now =
      (⟨200, .user "Registered successfully"
          ⟨freshId s, trim name, trim (R.toLowerCase email)⟩⟩,
        s ++ [⟨freshId s, trim name, trim (R.toLowerCase email), R.hash password 12 salt, [],
          now, now⟩],
        some (freshId s)) := by
  have hn0 : name ≠ "" := by rintro rfl; exact hn (by decide)
  have he0 : email ≠ "" := by
    rintro rfl
    rw [hL.2] at he
    exact he (by decide)
  rw [← emailSetters_toLowerCase hL] at he hfree
  have hcast : castString body.name = some name := by simp [hbn, castString]
  have hc := create_ok R s (R.toLowerCase email) (R.hash password 12 salt) now hcast hn he
    hhash hfree
  simp only [emailSetters_toLowerCase hL, nameSetters] at hc
  have h1 : body.name.truthy = true := by rw [hbn]; exact truthy_str hn0
  have h2 : body.email.truthy = true := by rw [hbe]; exact truthy_str he0
  have h3 : body.password.truthy = true := by rw [hbp]; exact truthy_str hp
  simp only [postRegister, h1, h2, h3]
  simp [hbe, hbp, findOne_eq_none hfree, hc]

theorem postLogin_ok (R : Runtime) (s : Store) (sess : Session) {body : Body} {e p : String}
    {u : User} (hbe : body.email = .str e) (hbp : body.password = .str p)
    (he : e ≠ "") (hp : p ≠ "") (hu : User.findOne R s (R.toLowerCase e) = some u)
    (hmatch : R.compare p u.password = true) :
    postLogin R s sess body =
      (⟨200, .user "Logged in" ⟨u._id, u.name, u.email⟩⟩, s, some u._id) := by
  have h2 : body.email.truthy = true := by rw [hbe]; exact truthy_str he
  have h3 : body.password.truthy = true := by rw [hbp]; exact truthy_str hp
  simp only [postLogin, h2, h3]
  simp [hbe, hbp, hu, hmatch]

theorem postLogin_unknown (R : Runtime) (s : Store) (sess : Session) {body : Body}
    {e : String} (hbe : body.email = .str e) (he : e ≠ "")
    (hpw : body.password.truthy = true) (hu : User.findOne R s (R.toLowerCase e) = none) :
    postLogin R s sess body = (⟨401, .error "Invalid email or password"⟩, s, sess) := by
  have h2 : body.email.truthy = true := by rw [hbe]; exact truthy_str he
  simp only [postLogin, h2, hpw]
  simp [hbe, hu]

theorem postLogin_wrong (R : Runtime) (s : Store) (sess : Session) {body : Body} {e p : String}
    {u : User} (hbe : body.email = .str e) (hbp : body.password = .str p)
    (he : e ≠ "") (hp : p ≠ "") (hu : User.findOne R s (R.toLowerCase e) = some u)
    (hmatch : R.compare p u.password = false) :
    postLogin R s sess body = (⟨401, .error "Invalid email or password"⟩, s, sess) := by
  have h2 : body.email.truthy = true := by rw [hbe]; exact truthy_str he
  have h3 : body.password.truthy = true := by rw [hbp]; exact truthy_str hp
  simp only [postLogin, h2, h3]
  simp [hbe, hbp, hu, hmatch]

theorem findOne_append_new {R : Runtime} {s : Store} {user : User} {e : String}
    (hfree : ∀ x ∈ s, x.email ≠ emailSetters R e) (hu : user.email = emailSetters R e) :
    User.findOne R (s ++ [user]) e = some user := by
  have h0 : User.findOne R s e = none := findOne_eq_none hfree
  unfold User.findOne at h0 ⊢
  rw [List.find?_append, h0]
  simp [hu]

theorem postRegister_success {R : Runtime} {s : Store} {sess : Session} {body : Body}
    {salt now : Nat} (hok : (postRegister R s sess body salt now).1.status = 200) :
    ∃ email password user, body.email = .str email ∧ body.password = .str password ∧
      email ≠ "" ∧ password ≠ "" ∧
      User.create R s body.name (R.toLowerCase email) (R.hash password 12 salt) now =
        some (user, s ++ [user]) ∧
      postRegister R s sess body salt now =
        (⟨200, .user "Registered successfully" ⟨user._id, user.name, user.email⟩⟩,
          s ++ [user], some user._id) := by
  unfold postRegister at hok ⊢
  split at hok
  · simp at hok
  · rename_i htruthy
    simp only [Bool.or_eq_true, Bool.not_eq_true', not_or, Bool.not_eq_false] at htruthy
    split at hok
    · rename_i email hbe
      split at hok
      · simp at hok
      · rename_i hfind
        split at hok
        · rename_i password hbp
          dsimp only at hok
          split at hok
          · rename_i user s1 hc
            have hs1 := (create_eq_some hc).1
            subst hs1
            have he : email ≠ "" := by
              have := htruthy.1.2
              rw [hbe] at this
              simpa [JsVal.truthy] using this
            have hp : password ≠ "" := by
              have := htruthy.2
              rw [hbp] at this
              simpa [JsVal.truthy] using this
            refine ⟨email, password, user, hbe, hbp, he, hp, hc, ?_⟩
            simp [htruthy.1.1, hbe, hfind, hbp, hc, truthy_str he, truthy_str hp]
          · simp at hok
        · simp at hok
    · simp at hok

/-! ## Claims on `POST /api/register` and `POST /api/login` -/

/-- C6: when one of name, email, password is missing or the empty string, the
handler of `POST /api/register` answers 400 'All fields required' and the
store and the session stay as they are, whatever the other fields hold. -/
theorem register_rejects_missing_field (R : Runtime) (s : Store) (sess : Session) (body : Body)
    (salt now : Nat)
    (h : (body.name = .undefined ∨ body.name = .str "") ∨
         (body.email = .undefined ∨ body.email = .str "") ∨
         (body.password = .undefined ∨ body.password = .str "")) :
    postRegister R s sess body salt now = (⟨400, .error "All fields required"⟩, s, sess) := by
  rcases h with (h | h) | (h | h) | (h | h) <;> simp [postRegister, h, JsVal.truthy]

theorem register_rejects_missing_field_witness :
    postRegister demoRuntime [⟨1, "Alice", "alice@x.com", "$2b$pw123", [], 0, 0⟩] none
        { name := .str "", email := .str "alice@x.com", password := .str "pw123" } 0 5 =
      (⟨400, .error "All fields required"⟩,
        [⟨1, "Alice", "alice@x.com", "$2b$pw123", [], 0, 0⟩], none) :=
  register_rejects_missing_field demoRuntime _ none
    { name := .str "", email := .str "alice@x.com", password := .str "pw123" } 0 5
    (Or.inl (Or.inr rfl))

/-- C4: a login naming an email no stored user has and a login naming a stored
user's email with a password that does not match the hash get the same answer,
401 with 'Invalid email or password'; neither changes the store or the
session.  An email is matched as the handler matches it, lowercased by the
engine's `toLowerCase` and trimmed. -/
theorem login_failures_indistinguishable (R : Runtime) (hL : R.LowerCaseLaws) (s : Store)
    (sess1 sess2 : Session) (body1 body2 : Body) (e1 p1 e2 p2 : String)
    (hb1e : body1.email = .str e1) (hb1p : body1.password = .str p1)
    (hb2e : body2.email = .str e2) (hb2p : body2.password = .str p2)
    (he1 : e1 ≠ "") (hp1 : p1 ≠ "") (he2 : e2 ≠ "") (hp2 : p2 ≠ "")
    (hunknown : ∀ u ∈ s, u.email ≠ trim (R.toLowerCase e1))
    (hknown : ∃ u ∈ s, u.email = trim (R.toLowerCase e2))
    (hwrong : ∀ u ∈ s, u.email = trim (R.toLowerCase e2) → R.compare p2 u.password = false) :
    postLogin R s sess1 body1 = (⟨401, .error "Invalid email or password"⟩, s, sess1) ∧
    postLogin R s sess2 body2 = (⟨401, .error "Invalid email or password"⟩, s, sess2) ∧
    (postLogin R s sess1 body1).1 = (postLogin R s sess2 body2).1 := by
  rw [← emailSetters_toLowerCase hL] at hunknown hknown hwrong
  have h1 : postLogin R s sess1 body1 =
      (⟨401, .error "Invalid email or password"⟩, s, sess1) :=
    postLogin_unknown R s sess1 hb1e he1 (by rw [hb1p]; exact truthy_str hp1)
      (findOne_eq_none hunknown)
  obtain ⟨v, hv, hvs, hve⟩ := findOne_isSome hknown
  have h2 : postLogin R s sess2 body2 =
      (⟨401, .error "Invalid email or password"⟩, s, sess2) :=
    postLogin_wrong R s sess2 hb2e hb2p he2 hp2 hv (hwrong v hvs hve)
  exact ⟨h1, h2, by rw [h1, h2]⟩

theorem login_failures_indistinguishable_witness :
    postLogin demoRuntime [⟨1, "Alice", "alice@x.com", "$2b$pw123", [], 0, 0⟩] none
        { email := .str "bob@x.com", password := .str "pw123" } =
      (⟨401, .error "Invalid email or password"⟩,
        [⟨1, "Alice", "alice@x.com", "$2b$pw123", [], 0, 0⟩], none) ∧
    postLogin demoRuntime [⟨1, "Alice", "alice@x.com", "$2b$pw123", [], 0, 0⟩] none
        { email := .str "alice@x.com", password := .str "guess" } =
      (⟨401, .error "Invalid email or password"⟩,
        [⟨1, "Alice", "alice@x.com", "$2b$pw123", [], 0, 0⟩], none) ∧
    (postLogin demoRuntime [⟨1, "Alice", "alice@x.com", "$2b$pw123", [], 0, 0⟩] none
        { email := .str "bob@x.com", password := .str "pw123" }).1 =
      (postLogin demoRuntime [⟨1, "Alice", "alice@x.com", "$2b$pw123", [], 0, 0⟩] none
        { email := .str "alice@x.com", password := .str "guess" }).1 :=
  login_failures_indistinguishable demoRuntime demoRuntime_lowerCase
    [⟨1, "Alice", "alice@x.com", "$2b$pw123", [], 0, 0⟩] none none
    { email := .str "bob@x.com", password := .str "pw123" }
    { email := .str "alice@x.com", password := .str "guess" }
    "bob@x.com" "pw123" "alice@x.com" "guess" rfl rfl rfl rfl
    (by decide) (by decide) (by decide) (by decide) (by decide) (by decide) (by decide)

/-- C3, as amended: when name and lowercased email are non-empty after
trimming, the password is non-empty and no stored user has the lowercased,
trimmed email, the handler of `POST /api/register` answers 200 and adds exactly
one user, whose stored email is the lowercased and trimmed email; after any
further requests, a register call whose email, lowercased and trimmed, equals
that stored email (any letter-case variant of it, padded or not) answers 409
'Email already registered' and leaves the users as they are. -/
theorem register_once_then_conflict (R : Runtime) (hL : R.LowerCaseLaws) (hB : R.BcryptLaws)
    (s : Store) (sess : Session) (body : Body) (name email password : String)
    (salt now : Nat)
    (hbn : body.name = .str name) (hbe : body.email = .str email)
    (hbp : body.password = .str password)
    (hn : trim name ≠ "") (he : trim (R.toLowerCase email) ≠ "") (hp : password ≠ "")
    (hfree : ∀ u ∈ s, u.email ≠ trim (R.toLowerCase email)) :
    ∃ user : User,
      postRegister R s sess body salt now =
        (⟨200, .user "Registered successfully" ⟨user._id, user.name, user.email⟩⟩,
          s ++ [user], some user._id) ∧
      user.email = trim (R.toLowerCase email) ∧
      ∀ (later : List (Session × Request)) (sess2 : Session) (body2 : Body) (email2 : String)
        (salt2 now2 : Nat),
        body2.email = .str email2 → trim (R.toLowerCase email2) = user.email →
        body2.name.truthy = true → body2.password.truthy = true →
        postRegister R (serveAll R (s ++ [user]) later) sess2 body2 salt2 now2 =
          (⟨409, .error "Email already registered"⟩, serveAll R (s ++ [user]) later, sess2) := by
  refine ⟨⟨freshId s, trim name, trim (R.toLowerCase email), R.hash password 12 salt, [],
    now, now⟩, postRegister_ok R hL s sess salt now hbn hbe hbp hn he hp (hB.2 _ _ _) hfree,
    rfl, ?_⟩
  intro later sess2 body2 email2 salt2 now2 hbe2 hkey2 hname2 hpw2
  have hkey : trim (R.toLowerCase email2) = trim (R.toLowerCase email) := hkey2
  have he2 : email2 ≠ "" := by
    rintro rfl
    rw [hL.2] at hkey
    exact he (by rw [← hkey]; decide)
  rw [← emailSetters_toLowerCase hL] at hfree
  have hnew : User.findOne R
      (s ++ [⟨freshId s, trim name, trim (R.toLowerCase email), R.hash password 12 salt, [],
        now, now⟩]) (R.toLowerCase email) = some _ :=
    findOne_append_new hfree (emailSetters_toLowerCase hL email).symm
  obtain ⟨v, hv, hc⟩ := extends_findOne (serveAll_extends R _ later) hnew
  apply postRegister_conflict R hL sess2 salt2 now2 hname2 hbe2 he2 hpw2
  refine ⟨v, List.mem_of_find?_eq_some hv, ?_⟩
  rw [hc.2.2.1, hkey]

theorem register_once_then_conflict_witness :
    ∃ user : User,
      postRegister demoRuntime [] none
          { name := .str "Alice", email := .str " Alice@X.com ", password := .str "pw123" } 0 5 =
        (⟨200, .user "Registered successfully" ⟨user._id, user.name, user.email⟩⟩,
          [] ++ [user], some user._id) ∧
      user.email = "alice@x.com" ∧
      ∀ (later : List (Session × Request)) (sess2 : Session),
        postRegister demoRuntime (serveAll demoRuntime ([] ++ [user]) later) sess2
            { name := .str "Eve", email := .str "ALICE@X.COM", password := .str "pw456" } 1 9 =
          (⟨409, .error "Email already registered"⟩,
            serveAll demoRuntime ([] ++ [user]) later, sess2) := by
  obtain ⟨user, h1, h2, h3⟩ := register_once_then_conflict demoRuntime demoRuntime_lowerCase
    demoRuntime_bcrypt [] none
    { name := .str "Alice", email := .str " Alice@X.com ", password := .str "pw123" }
    "Alice" " Alice@X.com " "pw123" 0 5 rfl rfl rfl (by decide) (by decide) (by decide)
    (by simp)
  refine ⟨user, h1, by rw [h2]; decide, fun later sess2 => ?_⟩
  exact h3 later sess2 _ "ALICE@X.COM" 1 9 rfl (by rw [h2]; decide) (by decide) (by decide)

/-- C3 as stated fails: (1) with the email ' a@x.com ' on an empty store the
call succeeds but the stored email is 'a@x.com', not the lowercased email
' a@x.com '; (2) the same email, when 'a@x.com' is stored, is an email no stored
user has lowercased, and the answer is 409; (3) a name of one space and (4) an
email of one space are non-empty, and the answer is 500 with no user added. -/
theorem register_lowercased_email_counterexample :
    (postRegister demoRuntime [] none
        { name := .str "Alice", email := .str " a@x.com ", password := .str "pw123" } 0 5 =
      (⟨200, .user "Registered successfully" ⟨1, "Alice", "a@x.com"⟩⟩,
        [⟨1, "Alice", "a@x.com", "$2b$pw123", [], 5, 5⟩], some 1) ∧
      "a@x.com" ≠ demoRuntime.toLowerCase " a@x.com ") ∧
    ((∀ u ∈ ([⟨1, "Alice", "a@x.com", "$2b$pw123", [], 5, 5⟩] : Store),
        u.email ≠ demoRuntime.toLowerCase " a@x.com ") ∧
      postRegister demoRuntime [⟨1, "Alice", "a@x.com", "$2b$pw123", [], 5, 5⟩] none
        { name := .str "Bob", email := .str " a@x.com ", password := .str "pw456" } 0 6 =
      (⟨409, .error "Email already registered"⟩,
        [⟨1, "Alice", "a@x.com", "$2b$pw123", [], 5, 5⟩], none)) ∧
    (" " ≠ "" ∧
      postRegister demoRuntime [] none
        { name := .str " ", email := .str "a@x.com", password := .str "pw123" } 0 5 =
      (⟨500, .error "Server error"⟩, [], none)) ∧
    postRegister demoRuntime [] none
        { name := .str "Alice", email := .str " ", password := .str "pw123" } 0 5 =
      (⟨500, .error "Server error"⟩, [], none) := by
  decide

/-- C5: after a successful register call with email `email` and password
`password`, and after any further requests, a login with that password and an
email whose lowercase form is that of `email` (any letter-casing variant, by
the engine's `toLowerCase`; padding aside) answers 200 with the id, name and
stored email of the user the register call created, and puts that id in the
session; the stored email is the lowercased (and trimmed) `email`. -/
theorem login_after_register_any_case (R : Runtime) (hL : R.LowerCaseLaws) (hB : R.BcryptLaws)
    (s : Store) (sess : Session) (body : Body) (email password : String) (salt now : Nat)
    (hbe : body.email = .str email) (hbp : body.password = .str password)
    (hok : (postRegister R s sess body salt now).1.status = 200) :
    ∃ user : User,
      postRegister R s sess body salt now =
        (⟨200, .user "Registered successfully" ⟨user._id, user.name, user.email⟩⟩,
          s ++ [user], some user._id) ∧
      user.email = trim (R.toLowerCase email) ∧
      ∀ (later : List (Session × Request)) (sess2 : Session) (body2 : Body) (email2 : String),
        body2.email = .str email2 → body2.password = .str password →
        trim (R.toLowerCase email2) = trim (R.toLowerCase email) →
        postLogin R (serveAll R (s ++ [user]) later) sess2 body2 =
          (⟨200, .user "Logged in" ⟨user._id, user.name, user.email⟩⟩,
            serveAll R (s ++ [user]) later, some user._id) := by
  obtain ⟨email0, password0, user, hbe0, hbp0, _, hp, hc, hout⟩ := postRegister_success hok
  have hE : email0 = email := by rw [hbe] at hbe0; exact (JsVal.str.inj hbe0).symm
  have hP : password0 = password := by rw [hbp] at hbp0; exact (JsVal.str.inj hbp0).symm
  subst hE hP
  obtain ⟨_, huemail, hupw, _, hfree, hne⟩ := create_eq_some hc
  refine ⟨user, hout, by rw [huemail, emailSetters_toLowerCase hL], ?_⟩
  intro later sess2 body2 email2 hbe2 hbp2 hcase
  have he2 : email2 ≠ "" := by
    rintro rfl
    rw [hL.2] at hcase
    rw [emailSetters_toLowerCase hL, ← hcase] at hne
    exact hne (by decide)
  have hnew := findOne_append_new hfree huemail
  obtain ⟨v, hv, hcont⟩ := extends_findOne (serveAll_extends R _ later) hnew
  have hkeys : emailSetters R (R.toLowerCase email2) = emailSetters R (R.toLowerCase email0) := by
    rw [emailSetters_toLowerCase hL, emailSetters_toLowerCase hL, hcase]
  rw [← findOne_congr R _ hkeys] at hv
  have hmatch : R.compare password0 v.password = true := by
    rw [hcont.2.2.2.1, hupw]
    exact hB.1 _ _ _
  rw [postLogin_ok R _ sess2 hbe2 hbp2 he2 hp hv hmatch, hcont.1, hcont.2.1, hcont.2.2.1]

theorem login_after_register_any_case_witness :
    ∃ user : User,
      postRegister demoRuntime [] none
          { name := .str "Alice", email := .str "alice@x.com", password := .str "pw123" } 0 5 =
        (⟨200, .user "Registered successfully" ⟨user._id, user.name, user.email⟩⟩,
          [] ++ [user], some user._id) ∧
      user.email = "alice@x.com" ∧
      ∀ (later : List (Session × Request)) (sess2 : Session),
        postLogin demoRuntime (serveAll demoRuntime ([] ++ [user]) later) sess2
            { email := .str "ALICE@X.COM", password := .str "pw123" } =
          (⟨200, .user "Logged in" ⟨user._id, user.name, user.email⟩⟩,
            serveAll demoRuntime ([] ++ [user]) later, some user._id) := by
  obtain ⟨user, h1, h2, h3⟩ := login_after_register_any_case demoRuntime demoRuntime_lowerCase
    demoRuntime_bcrypt [] none
    { name := .str "Alice", email := .str "alice@x.com", password := .str "pw123" }
    "alice@x.com" "pw123" 0 5 rfl rfl (by decide)
  exact ⟨user, h1, by rw [h2]; decide,
    fun later sess2 => h3 later sess2 _ "ALICE@X.COM" rfl rfl (by decide)⟩

/-- C10: for a stored user `u` and a non-empty request email that equals `u`'s
email after lowercasing (by the engine's `toLowerCase`) and trimming, the
handler of `POST /api/register` (name and password passing the emptiness test)
answers 409 'Email already registered' and adds no user; and, emails being
unique in the store, a login with such an email and a password matching `u`'s
hash answers 200 with `u`. -/
theorem normalized_email_is_the_key (R : Runtime) (hL : R.LowerCaseLaws) (s : Store) (u : User)
    (e : String) (hu : u ∈ s) (he : e ≠ "") (hkey : trim (R.toLowerCase e) = u.email) :
    (∀ (sess : Session) (body : Body) (salt now : Nat),
      body.email = .str e → body.name.truthy = true → body.password.truthy = true →
      postRegister R s sess body salt now =
        (⟨409, .error "Email already registered"⟩, s, sess)) ∧
    ((∀ v ∈ s, v.email = u.email → v = u) →
      ∀ (sess : Session) (body : Body) (p : String),
        body.email = .str e → body.password = .str p → p ≠ "" →
        R.compare p u.password = true →
        postLogin R s sess body =
          (⟨200, .user "Logged in" ⟨u._id, u.name, u.email⟩⟩, s, some u._id)) := by
  constructor
  · intro sess body salt now hbe hname hpw
    exact postRegister_conflict R hL sess salt now hname hbe he hpw ⟨u, hu, hkey.symm⟩
  · intro huniq sess body p hbe hbp hp hmatch
    obtain ⟨v, hv, hvs, hve⟩ := findOne_isSome (R := R) (s := s) (e := R.toLowerCase e)
      ⟨u, hu, by rw [emailSetters_toLowerCase hL, hkey]⟩
    have hvu : v = u := huniq v hvs (by rw [hve, emailSetters_toLowerCase hL, hkey])
    subst hvu
    exact postLogin_ok R s sess hbe hbp he hp hv hmatch

theorem normalized_email_is_the_key_witness :
    postRegister demoRuntime [⟨1, "Alice", "alice@x.com", "$2b$pw123", [], 0, 0⟩] none
        { name := .str "Eve", email := .str " Alice@X.com ", password := .str "pw456" } 0 5 =
      (⟨409, .error "Email already registered"⟩,
        [⟨1, "Alice", "alice@x.com", "$2b$pw123", [], 0, 0⟩], none) ∧
    postLogin demoRuntime [⟨1, "Alice", "alice@x.com", "$2b$pw123", [], 0, 0⟩] none
        { email := .str " Alice@X.com ", password := .str "pw123" } =
      (⟨200, .user "Logged in" ⟨1, "Alice", "alice@x.com"⟩⟩,
        [⟨1, "Alice", "alice@x.com", "$2b$pw123", [], 0, 0⟩], some 1) :=
  have h := normalized_email_is_the_key demoRuntime demoRuntime_lowerCase
    [⟨1, "Alice", "alice@x.com", "$2b$pw123", [], 0, 0⟩]
    ⟨1, "Alice", "alice@x.com", "$2b$pw123", [], 0, 0⟩ " Alice@X.com "
    (by decide) (by decide) (by decide)
  ⟨h.1 none { name := .str "Eve", email := .str " Alice@X.com ", password := .str "pw456" }
      0 5 rfl (by decide) (by decide),
    h.2 (by decide) none { email := .str " Alice@X.com ", password := .str "pw123" } "pw123"
      rfl rfl (by decide) (by decide)⟩

/-! ## Invariants of the collection -/

theorem handle_keeps_unique_emails (R : Runtime) (s : Store) (sess : Session) (r : Request)
    (h : UniqueEmails s) : UniqueEmails (handle R s sess r).2.1 := by
  cases r with
  | register body salt now =>
    rcases postRegister_store R s sess body salt now with h1 | ⟨user, h1, _, hfree⟩
    · simp only [handle, h1]; exact h
    · simp only [handle, h1, UniqueEmails, List.map_append, List.map_cons, List.map_nil]
      refine List.Nodup.append h (List.nodup_singleton _) ?_
      intro m hm hm1
      obtain ⟨x, hx, hxe⟩ := List.mem_map.mp hm
      rw [List.mem_singleton] at hm1
      exact hfree x hx (hxe.trans hm1)
  | login body => simp only [handle, postLogin_store]; exact h
  | logout destroyFails => cases destroyFails <;> exact h
  | eventRegister body now savedAt =>
    rcases postEventRegister_store s sess body now savedAt with h1 | ⟨userId, u, e, _, hu, _, _, h1⟩
    · simp only [handle, h1]; exact h
    · obtain ⟨_, pre, post, hs, _, hrep⟩ := findById_split hu
      simp only [handle, h1, hrep, UniqueEmails]
      have h0 : UniqueEmails (pre ++ u :: post) := hs ▸ h
      simpa [UniqueEmails] using h0
  | me => cases sess <;> exact h
  | adminRegistrations => exact h

/-- Every store reached from the empty one has unique emails. -/
theorem serveAll_unique_emails (R : Runtime) (later : List (Session × Request)) (s : Store)
    (h : UniqueEmails s) : UniqueEmails (serveAll R s later) := by
  induction later generalizing s with
  | nil => exact h
  | cons x rest ih =>
    obtain ⟨sess, r⟩ := x
    exact ih _ (handle_keeps_unique_emails R s sess r h)

/-- The invariant `NoDuplicateEvents` is kept by every request whose event
name, if it is an event registration, is a string. -/
theorem handle_keeps_noDuplicateEvents_of_string (R : Runtime) (s : Store) (sess : Session)
    (r : Request)
    (hr : ∀ body now savedAt, r = .eventRegister body now savedAt →
      ∃ e, body.eventName = .str e)
    (h : NoDuplicateEvents s) : NoDuplicateEvents (handle R s sess r).2.1 := by
  cases r with
  | register body salt now =>
    rcases postRegister_store R s sess body salt now with h1 | ⟨user, h1, hregs, _⟩
    · simp only [handle, h1]; exact h
    · simp only [handle, h1]
      intro x hx
      rcases List.mem_append.mp hx with hx1 | hx1
      · exact h x hx1
      · rw [List.mem_singleton] at hx1
        subst hx1
        simp [hregs]
  | login body => simp only [handle, postLogin_store]; exact h
  | logout destroyFails => cases destroyFails <;> exact h
  | eventRegister body now savedAt =>
    obtain ⟨e0, he0⟩ := hr body now savedAt rfl
    rcases postEventRegister_store s sess body now savedAt with
      h1 | ⟨userId, u, e, _, hu, hcast, hnone, h1⟩
    · simp only [handle, h1]; exact h
    · obtain ⟨_, pre, post, hs, _, hrep⟩ := findById_split hu
      simp only [handle, h1, hrep]
      have hee : e = e0 := by
        rw [he0] at hcast
        simpa [castString] using hcast.symm
      subst hee
      have hus : u ∈ s := by rw [hs]; simp
      intro x hx
      rcases List.mem_append.mp hx with hx1 | hx1
      · exact h x (by rw [hs]; exact List.mem_append_left _ hx1)
      · rcases List.mem_cons.mp hx1 with hx2 | hx2
        · subst hx2
          simp only [List.map_append, List.map_cons, List.map_nil]
          refine List.Nodup.append (h u hus) (List.nodup_singleton _) ?_
          intro m hm hm1
          obtain ⟨r0, hr0, hr0e⟩ := List.mem_map.mp hm
          rw [List.mem_singleton] at hm1
          have := hnone r0 hr0
          rw [he0] at this
          simp [strictEq] at this
          exact this (hr0e.trans hm1)
        · exact h x (by rw [hs]; exact List.mem_append_right _ (List.mem_cons_of_mem _ hx2))
  | me => cases sess <;> exact h
  | adminRegistrations => exact h

/-- C2, at the failing input: the stored user has one registration named
'2024' and posts the JSON number 2024 as `eventName`.  The test `===` of the
handler finds no entry equal to the number, the pushed entry is cast to the
string '2024', and the answer is 200 with two entries named '2024'.  The same
store is reached from the empty one by a register call followed by the same
event request twice. -/
theorem duplicate_event_name_after_cast :
    NoDuplicateEvents [⟨1, "Alice", "alice@x.com", "$2b$pw123", [⟨"2024", 3⟩], 0, 3⟩] ∧
    postEventRegister [⟨1, "Alice", "alice@x.com", "$2b$pw123", [⟨"2024", 3⟩], 0, 3⟩]
        (some 1) { eventName := .num 2024 (by decide) } 7 8 =
      (⟨200, .registrations "Registered for event" [⟨"2024", 3⟩, ⟨"2024", 7⟩]⟩,
        [⟨1, "Alice", "alice@x.com", "$2b$pw123", [⟨"2024", 3⟩, ⟨"2024", 7⟩], 0, 8⟩], some 1) ∧
    ¬ NoDuplicateEvents
        [⟨1, "Alice", "alice@x.com", "$2b$pw123", [⟨"2024", 3⟩, ⟨"2024", 7⟩], 0, 8⟩] ∧
    serve demoRuntime [] none
        [.register ⟨.str "Alice", .str "alice@x.com", .str "pw123", .undefined⟩ 0 0,
          .eventRegister ⟨.undefined, .undefined, .undefined, (.num 2024 (by decide))⟩ 3 3,
          .eventRegister ⟨.undefined, .undefined, .undefined, (.num 2024 (by decide))⟩ 7 8] =
      ([⟨1, "Alice", "alice@x.com", "$2b$pw123", [⟨"2024", 3⟩, ⟨"2024", 7⟩], 0, 8⟩], some 1) := by
  refine ⟨?_, by decide, ?_, by decide⟩
  · unfold NoDuplicateEvents; decide
  · unfold NoDuplicateEvents; decide


/-! ## The scenario of the specification, evaluated -/

/-- The scenario: register Alice, register the same email again, log in with
the email in capitals, register for 'conf2024' twice. -/
theorem scenario_register_login_event :
    postRegister demoRuntime [] none
        { name := .str "Alice", email := .str "alice@x.com", password := .str "pw123" } 0 1 =
      (⟨200, .user "Registered successfully" ⟨1, "Alice", "alice@x.com"⟩⟩,
        [⟨1, "Alice", "alice@x.com", "$2b$pw123", [], 1, 1⟩], some 1) ∧
    (postRegister demoRuntime [⟨1, "Alice", "alice@x.com", "$2b$pw123", [], 1, 1⟩] none
        { name := .str "Alice", email := .str "alice@x.com", password := .str "pw123" } 0 2).1 =
      ⟨409, .error "Email already registered"⟩ ∧
    postLogin demoRuntime [⟨1, "Alice", "alice@x.com", "$2b$pw123", [], 1, 1⟩] none
        { email := .str "ALICE@X.COM", password := .str "pw123" } =
      (⟨200, .user "Logged in" ⟨1, "Alice", "alice@x.com"⟩⟩,
        [⟨1, "Alice", "alice@x.com", "$2b$pw123", [], 1, 1⟩], some 1) ∧
    postEventRegister [⟨1, "Alice", "alice@x.com", "$2b$pw123", [], 1, 1⟩] (some 1)
        { eventName := .str "conf2024" } 3 4 =
      (⟨200, .registrations "Registered for event" [⟨"conf2024", 3⟩]⟩,
        [⟨1, "Alice", "alice@x.com", "$2b$pw123", [⟨"conf2024", 3⟩], 1, 4⟩], some 1) ∧
    postEventRegister [⟨1, "Alice", "alice@x.com", "$2b$pw123", [⟨"conf2024", 3⟩], 1, 4⟩]
        (some 1) { eventName := .str "conf2024" } 5 6 =
      (⟨409, .error "Already registered for this event"⟩,
        [⟨1, "Alice", "alice@x.com", "$2b$pw123", [⟨"conf2024", 3⟩], 1, 4⟩], some 1) := by
  decide

end EventRegistration
